import Mathlib

/-!
Shallow embedding of `src/cap_test_2/cap_test_2.ino`: a capacitive-touch
control loop (median noise filter, calibration with adaptive baseline,
debounced hysteretic touch state machine) driving a fixed DMX light
sequence.  Definitions mirror the source functions; theorems settle the
behavioural claims about them.
-/

namespace CapTest2

/-! ### Constants (lines 12-21 of the source) -/

def NUM_RGB_FIX : Nat := 7
def CH_PER_RGB : Nat := 3
def CH_LAST_FIX : Nat := 1
def TOTAL_DMX_CH : Nat := NUM_RGB_FIX * CH_PER_RGB + CH_LAST_FIX
def SAMPLE_SIZE : Nat := 9
def DEBOUNCE_TIME : Nat := 50
def BASELINE_UPDATE_RATE : Nat := 10000

/-! ### DMX bus events

The Bus Sink is external; each `dmxTx.set(ch, val)` call is recorded as a
`write` event and each `delay(ms)` inside the sequencer as a `hold`, so a
sequence is the ordered trace of its bus interaction. -/

inductive Event where
  | write (ch : Nat) (val : Nat)
  | hold (ms : Nat)
deriving DecidableEq, Repr

/-- `setRGB` (lines 110-115): writes `val` to the three channels of an RGB
fixture, whose base channel is `fixtureIndex * CH_PER_RGB + 1`. -/
def setRGB (fixtureIndex val : Nat) : List Event :=
  let base := fixtureIndex * CH_PER_RGB + 1
  [Event.write base val, Event.write (base + 1) val, Event.write (base + 2) val]

/-- `allOff` (lines 118-122): writes 0 to every channel `1 .. TOTAL_DMX_CH`. -/
def allOff : List Event :=
  (List.range' 1 TOTAL_DMX_CH).map (fun ch => Event.write ch 0)

/-- `playLightSequence` (lines 144-162): the fixed touch-triggered script. -/
def playLightSequence : List Event :=
  setRGB 0 255 ++ setRGB 5 255 ++ [Event.hold 500] ++
  setRGB 1 255 ++ setRGB 4 255 ++ [Event.hold 250] ++
  setRGB 2 255 ++ setRGB 3 255 ++ [Event.hold 2000] ++
  [Event.write 20 255, Event.hold 7000, Event.write 20 0] ++ allOff

/-- Test-double Bus Sink: fold a trace of events over a channel-to-intensity
map; `write` updates the channel, `hold` changes nothing. -/
def applyEvents (bus : Nat → Nat) (es : List Event) : Nat → Nat :=
  es.foldl (fun b e => match e with
    | Event.write ch v => Function.update b ch v
    | Event.hold _ => b) bus

/-- The sequence the spec scenario claims for `play()`: identical to the
source script except that the accent writes go to channel 22
(spec: "then channel 22 to 255, hold, then channel 22 to 0").
Modelled from the spec's words, for comparison with `playLightSequence`. -/
def claimedSequenceC1 : List Event :=
  setRGB 0 255 ++ setRGB 5 255 ++ [Event.hold 500] ++
  setRGB 1 255 ++ setRGB 4 255 ++ [Event.hold 250] ++
  setRGB 2 255 ++ setRGB 3 255 ++ [Event.hold 2000] ++
  [Event.write 22 255, Event.hold 7000, Event.write 22 0] ++ allOff

/-! ### Noise filter (RunningMedian, window `SAMPLE_SIZE`)

The `RunningMedian` library keeps the most recent `SAMPLE_SIZE` samples and
`getMedian()` returns the middle element (index `count / 2`) of the sorted
buffer.  The window is a list, most recent sample last. -/

/-- Insert into a sorted list, ascending. -/
def insertSorted (x : Int) : List Int → List Int
  | [] => [x]
  | y :: ys => if x ≤ y then x :: y :: ys else y :: insertSorted x ys

/-- Ascending sort of the sample window. -/
def sortWindow (l : List Int) : List Int := l.foldr insertSorted []

/-- `touchSamples.getMedian()`: middle element of the sorted window. -/
def getMedian (w : List Int) : Int := (sortWindow w).getD (w.length / 2) 0

/-- `touchSamples.add(x)`: append a sample, dropping the oldest ones when the
window exceeds `SAMPLE_SIZE`. -/
def addSample (w : List Int) (x : Int) : List Int :=
  let w2 := w ++ [x]
  if SAMPLE_SIZE < w2.length then w2.drop (w2.length - SAMPLE_SIZE) else w2

/-! ### Global state (lines 24-30) and the C arithmetic it uses

Times are `millis()` values; `unsigned long` subtraction `a - b` on the
32-bit target is subtraction modulo `2^32`, embedded as `usub32`.  Signed
`int` division in C truncates toward zero, embedded as `Int.tdiv`. -/

/-- 32-bit unsigned subtraction `a - b` (wraps modulo `2^32`). -/
def usub32 (a b : Nat) : Nat := (((a : Int) - (b : Int)) % (2 ^ 32 : Int)).toNat

structure SysState where
  baseline : Int
  touchThreshold : Int
  releaseThreshold : Int
  window : List Int
  touched : Bool
  lastTouchTime : Nat
  lastBaselineUpdate : Nat
deriving Repr, DecidableEq

/-- The global initializers (lines 25-30); the filter window starts empty. -/
def initState : SysState :=
  { baseline := 0, touchThreshold := 60, releaseThreshold := 40,
    window := [], touched := false, lastTouchTime := 0, lastBaselineUpdate := 0 }

/-! ### Calibration engine -/

/-- `calibrateBaseline` (lines 50-107).  `calibSamples` are the 100 readings
averaged into the baseline (the 10 discarded settling reads are not
modelled: they have no effect), `noiseSamples` the 20 readings whose mean
absolute deviation estimates the noise, `now` the `millis()` recorded into
`lastBaselineUpdate` at the end.  The window is cleared and then seeded with
`SAMPLE_SIZE` copies of the baseline. -/
def calibrateBaseline (s : SysState) (calibSamples noiseSamples : List Int)
    (now : Nat) : SysState :=
  let baseline := calibSamples.sum.tdiv 100
  let sumDifferences := (noiseSamples.map (fun sample => |sample - baseline|)).sum
  let noiseLevel := sumDifferences.tdiv 20
  let touchThreshold := max (noiseLevel * 3) 50
  let releaseThreshold := (touchThreshold * 2).tdiv 3
  { s with
    baseline := baseline
    touchThreshold := touchThreshold
    releaseThreshold := releaseThreshold
    window := List.replicate SAMPLE_SIZE baseline
    lastBaselineUpdate := now }

/-- `updateAdaptiveBaseline` (lines 124-141).  `tCheck` is the `millis()`
value of the guard, `samples` the 10 fresh readings of the burst, `tAfter`
the `millis()` stored back into `lastBaselineUpdate`.  A no-op unless
untouched and the adapt interval has elapsed. -/
def updateAdaptiveBaseline (s : SysState) (tCheck : Nat) (samples : List Int)
    (tAfter : Nat) : SysState :=
  if !s.touched && decide (BASELINE_UPDATE_RATE < usub32 tCheck s.lastBaselineUpdate) then
    let newReading := samples.sum.tdiv 10
    { s with
      baseline := (s.baseline * 9 + newReading).tdiv 10
      lastBaselineUpdate := tAfter }
  else s

/-! ### Control loop -/

/-- The environment inputs consumed by one `loop()` tick: the raw
`analogRead` fed to the filter, the `millis()` value and burst samples seen
by `updateAdaptiveBaseline`, and the `millis()` taken as `currentTime`. -/
structure TickInput where
  reading : Int
  tAdaptCheck : Nat
  adaptSamples : List Int
  tAdaptAfter : Nat
  now : Nat
deriving Repr, DecidableEq

/-- One iteration of `loop()` (lines 164-205), state part.  The filtered
difference is computed before the adaptive-baseline update, as in the
source; the sequencer and serial output do not feed back into the state. -/
def loopStep (s : SysState) (inp : TickInput) : SysState :=
  let w := addSample s.window inp.reading
  let filteredValue := getMedian w
  let difference := filteredValue - s.baseline
  let s1 := updateAdaptiveBaseline { s with window := w }
    inp.tAdaptCheck inp.adaptSamples inp.tAdaptAfter
  let currentTime := inp.now
  if !s1.touched && decide (s1.touchThreshold < difference) &&
      decide (DEBOUNCE_TIME < usub32 currentTime s1.lastTouchTime) then
    { s1 with touched := true, lastTouchTime := currentTime }
  else if s1.touched && decide (difference < s1.releaseThreshold) &&
      decide (DEBOUNCE_TIME < usub32 currentTime s1.lastTouchTime) then
    { s1 with touched := false, lastTouchTime := currentTime }
  else s1

/-- Run the control loop over a stream of tick inputs. -/
def runTicks (s : SysState) (inps : List TickInput) : SysState :=
  inps.foldl loopStep s

/-! ### Theorems -/

/-- Folding zero-writes over the bus zeroes exactly the written channels. -/
theorem applyEvents_write_zero (l : List Nat) (bus : Nat → Nat) (ch : Nat) :
    applyEvents bus (l.map (fun c => Event.write c 0)) ch =
      if ch ∈ l then 0 else bus ch := by
  induction l generalizing bus with
  | nil => simp [applyEvents]
  | cons c l ih =>
    simp only [List.map_cons, applyEvents, List.foldl_cons, List.mem_cons]
    rw [show (List.foldl _ (Function.update bus c 0) (l.map (fun c => Event.write c 0)) : Nat → Nat) =
      applyEvents (Function.update bus c 0) (l.map (fun c => Event.write c 0)) from rfl, ih]
    by_cases hl : ch ∈ l
    · simp [hl]
    · by_cases hc : ch = c <;> simp [hl, hc, Function.update_apply]

/-- `touchThreshold * 2/3` in C is `(T * 2).tdiv 3`; for `50 ≤ T` it lies
strictly between 32 and `T`. -/
theorem tdiv_two_thirds_bounds (T : Int) (hT : 50 ≤ T) :
    33 ≤ (T * 2).tdiv 3 ∧ (T * 2).tdiv 3 < T := by
  rw [Int.tdiv_eq_ediv (by omega) (by norm_num)]
  omega

/-- `updateAdaptiveBaseline` only ever changes `baseline` and
`lastBaselineUpdate`. -/
theorem updateAdaptiveBaseline_fields (s : SysState) (tCheck : Nat)
    (samples : List Int) (tAfter : Nat) :
    (updateAdaptiveBaseline s tCheck samples tAfter).touchThreshold = s.touchThreshold ∧
    (updateAdaptiveBaseline s tCheck samples tAfter).releaseThreshold = s.releaseThreshold ∧
    (updateAdaptiveBaseline s tCheck samples tAfter).touched = s.touched ∧
    (updateAdaptiveBaseline s tCheck samples tAfter).lastTouchTime = s.lastTouchTime ∧
    (updateAdaptiveBaseline s tCheck samples tAfter).window = s.window := by
  unfold updateAdaptiveBaseline
  split <;> simp

/-- `loopStep` never changes the thresholds. -/
theorem loopStep_thresholds (s : SysState) (inp : TickInput) :
    (loopStep s inp).touchThreshold = s.touchThreshold ∧
    (loopStep s inp).releaseThreshold = s.releaseThreshold := by
  unfold loopStep
  dsimp only
  obtain ⟨hT, hR, -, -, -⟩ := updateAdaptiveBaseline_fields
    { s with window := addSample s.window inp.reading }
    inp.tAdaptCheck inp.adaptSamples inp.tAdaptAfter
  split
  · exact ⟨hT, hR⟩
  · split
    · exact ⟨hT, hR⟩
    · exact ⟨hT, hR⟩

/-- C1 (counterexample): the claimed trace writes the accent on channel 22,
but `playLightSequence` never writes 255 to channel 22 — its accent writes
go to channel 20. -/
theorem playLightSequence_accent_not_ch22 :
    playLightSequence ≠ claimedSequenceC1 ∧
      Event.write 22 255 ∉ playLightSequence ∧
      Event.write 20 255 ∈ playLightSequence := by decide

/-- C1 (amended): with the reference ChannelMap, `playLightSequence` emits
exactly this trace: fixtures 0 and 5 (channels 1-3, 16-18) to 255, hold;
fixtures 1 and 4 (channels 4-6, 13-15) to 255, hold; fixtures 2 and 3
(channels 7-9, 10-12) to 255, hold; channel 20 to 255, hold; channel 20 to
0; then every channel 1-22 set to 0. -/
theorem playLightSequence_trace :
    playLightSequence =
      [Event.write 1 255, Event.write 2 255, Event.write 3 255,
       Event.write 16 255, Event.write 17 255, Event.write 18 255,
       Event.hold 500,
       Event.write 4 255, Event.write 5 255, Event.write 6 255,
       Event.write 13 255, Event.write 14 255, Event.write 15 255,
       Event.hold 250,
       Event.write 7 255, Event.write 8 255, Event.write 9 255,
       Event.write 10 255, Event.write 11 255, Event.write 12 255,
       Event.hold 2000,
       Event.write 20 255, Event.hold 7000, Event.write 20 0,
       Event.write 1 0, Event.write 2 0, Event.write 3 0, Event.write 4 0,
       Event.write 5 0, Event.write 6 0, Event.write 7 0, Event.write 8 0,
       Event.write 9 0, Event.write 10 0, Event.write 11 0, Event.write 12 0,
       Event.write 13 0, Event.write 14 0, Event.write 15 0, Event.write 16 0,
       Event.write 17 0, Event.write 18 0, Event.write 19 0, Event.write 20 0,
       Event.write 21 0, Event.write 22 0] := by decide

/-- C8: `allOff()` writes intensity zero to every channel of the ChannelMap:
after applying its trace to any Bus Sink state, every channel from 1 through
`TOTAL_DMX_CH` = 22 reads back zero. -/
theorem allOff_zeroes_all_channels (bus : Nat → Nat) (ch : Nat)
    (h1 : 1 ≤ ch) (h2 : ch ≤ TOTAL_DMX_CH) :
    applyEvents bus allOff ch = 0 := by
  rw [allOff, applyEvents_write_zero]
  have : ch ∈ List.range' 1 TOTAL_DMX_CH := by
    rw [List.mem_range'_1]
    exact ⟨h1, by omega⟩
  simp [this]

/-- Witness for C8 at a concrete bus state and channel. -/
theorem allOff_zeroes_all_channels_witness :
    1 ≤ 22 ∧ 22 ≤ TOTAL_DMX_CH ∧ applyEvents (fun _ => 255) allOff 22 = 0 :=
  ⟨by decide, by decide,
    allOff_zeroes_all_channels (fun _ => 255) 22 (by decide) (by decide)⟩

/-- C2: every calibration run yields `releaseThreshold < touchThreshold`,
and no control-loop step ever changes either threshold afterwards, so the
ordering is preserved for the lifetime of the program. -/
theorem calibrate_hysteresis_ordering :
    (∀ (s : SysState) (calibSamples noiseSamples : List Int) (now : Nat),
      (calibrateBaseline s calibSamples noiseSamples now).releaseThreshold <
        (calibrateBaseline s calibSamples noiseSamples now).touchThreshold) ∧
    (∀ (s : SysState) (inp : TickInput),
      (loopStep s inp).touchThreshold = s.touchThreshold ∧
      (loopStep s inp).releaseThreshold = s.releaseThreshold) := by
  constructor
  · intro s calibSamples noiseSamples now
    have h50 : 50 ≤ (calibrateBaseline s calibSamples noiseSamples now).touchThreshold :=
      le_max_right _ _
    exact (tdiv_two_thirds_bounds _ h50).2
  · exact loopStep_thresholds

/-- C5: calibration sets `touchThreshold = max (noiseLevel * 3) 50` where
`noiseLevel` is the (integer) mean absolute deviation of the 20 noise
samples from the computed baseline, and
`releaseThreshold = touchThreshold * 2 / 3`; the floor of 50 means the
touch threshold never drops below 50 even with zero measured noise. -/
theorem calibrate_threshold_formula (s : SysState)
    (calibSamples noiseSamples : List Int) (now : Nat) :
    (calibrateBaseline s calibSamples noiseSamples now).touchThreshold =
      max (((noiseSamples.map (fun sample =>
        |sample - (calibrateBaseline s calibSamples noiseSamples now).baseline|)).sum.tdiv 20) * 3) 50 ∧
    (calibrateBaseline s calibSamples noiseSamples now).releaseThreshold =
      ((calibrateBaseline s calibSamples noiseSamples now).touchThreshold * 2).tdiv 3 ∧
    50 ≤ (calibrateBaseline s calibSamples noiseSamples now).touchThreshold :=
  ⟨rfl, rfl, le_max_right _ _⟩

/-- C10: after any calibration run, `touchThreshold ≥ 50` and
`releaseThreshold ≥ 33`, and any filtered value at or below the baseline
satisfies the strict release comparison `difference < releaseThreshold`. -/
theorem calibrate_threshold_lower_bounds (s : SysState)
    (calibSamples noiseSamples : List Int) (now : Nat) :
    50 ≤ (calibrateBaseline s calibSamples noiseSamples now).touchThreshold ∧
    33 ≤ (calibrateBaseline s calibSamples noiseSamples now).releaseThreshold ∧
    ∀ filteredValue : Int,
      filteredValue ≤ (calibrateBaseline s calibSamples noiseSamples now).baseline →
      filteredValue - (calibrateBaseline s calibSamples noiseSamples now).baseline <
        (calibrateBaseline s calibSamples noiseSamples now).releaseThreshold := by
  have h50 : 50 ≤ (calibrateBaseline s calibSamples noiseSamples now).touchThreshold :=
    le_max_right _ _
  have h33 : 33 ≤ (calibrateBaseline s calibSamples noiseSamples now).releaseThreshold :=
    (tdiv_two_thirds_bounds _ h50).1
  exact ⟨h50, h33, fun filteredValue hle => by omega⟩

/-- Witness for C10 at a concrete calibration run and filtered value. -/
theorem calibrate_threshold_lower_bounds_witness :
    (-5 : Int) ≤ (calibrateBaseline initState [500, 500] [502, 498] 0).baseline ∧
    (-5 : Int) - (calibrateBaseline initState [500, 500] [502, 498] 0).baseline <
      (calibrateBaseline initState [500, 500] [502, 498] 0).releaseThreshold :=
  ⟨by decide,
    (calibrate_threshold_lower_bounds initState [500, 500] [502, 498] 0).2.2 (-5) (by decide)⟩

/-- C4: while the touch state is `Touched`, `updateAdaptiveBaseline` leaves
the baseline unchanged, no matter how much time has elapsed since the last
adaptive update. -/
theorem updateAdaptiveBaseline_noop_when_touched (s : SysState) (tCheck : Nat)
    (samples : List Int) (tAfter : Nat) (h : s.touched = true) :
    (updateAdaptiveBaseline s tCheck samples tAfter).baseline = s.baseline := by
  unfold updateAdaptiveBaseline
  simp [h]

/-- Witness for C4: a touched state, with far more than the 10-second adapt
interval elapsed, keeps its baseline. -/
theorem updateAdaptiveBaseline_noop_when_touched_witness :
    (⟨500, 50, 33, List.replicate 9 500, true, 0, 0⟩ : SysState).touched = true ∧
    (updateAdaptiveBaseline ⟨500, 50, 33, List.replicate 9 500, true, 0, 0⟩
        999999 (List.replicate 10 (800:Int)) 999999).baseline =
      (⟨500, 50, 33, List.replicate 9 500, true, 0, 0⟩ : SysState).baseline :=
  ⟨rfl, updateAdaptiveBaseline_noop_when_touched _ 999999 _ 999999 rfl⟩

/-- C3: if, at a tick, the elapsed time since the last transition timestamp
is at most `DEBOUNCE_TIME`, the tick changes neither the touch state nor the
transition timestamp: the state persists unchanged. -/
theorem loopStep_debounce_blocks_transition (s : SysState) (inp : TickInput)
    (h : usub32 inp.now s.lastTouchTime ≤ DEBOUNCE_TIME) :
    (loopStep s inp).touched = s.touched ∧
    (loopStep s inp).lastTouchTime = s.lastTouchTime := by
  unfold loopStep
  dsimp only
  obtain ⟨-, -, htc, hlt, -⟩ := updateAdaptiveBaseline_fields
    { s with window := addSample s.window inp.reading }
    inp.tAdaptCheck inp.adaptSamples inp.tAdaptAfter
  rw [hlt, decide_eq_false (Nat.not_lt.mpr h)]
  simp [htc, hlt]

/-- Witness for C3: 20 ms after a transition, a reading far above threshold
still flips nothing. -/
theorem loopStep_debounce_blocks_transition_witness :
    usub32 120 (⟨0, 50, 33, List.replicate 9 0, false, 100, 0⟩ : SysState).lastTouchTime ≤
      DEBOUNCE_TIME ∧
    (loopStep ⟨0, 50, 33, List.replicate 9 0, false, 100, 0⟩
        ⟨500, 120, [], 120, 120⟩).touched =
      (⟨0, 50, 33, List.replicate 9 0, false, 100, 0⟩ : SysState).touched ∧
    (loopStep ⟨0, 50, 33, List.replicate 9 0, false, 100, 0⟩
        ⟨500, 120, [], 120, 120⟩).lastTouchTime =
      (⟨0, 50, 33, List.replicate 9 0, false, 100, 0⟩ : SysState).lastTouchTime := by
  refine ⟨by decide, ?_⟩
  exact loopStep_debounce_blocks_transition _ _ (by decide)

/-- C6: at each tick, the `Idle → Touched` transition fires exactly when the
filtered difference strictly exceeds the touch threshold and more than
`DEBOUNCE_TIME` has elapsed since the last transition, and the
`Touched → Idle` transition fires exactly when the difference is strictly
below the release threshold and the same debounce guard holds.  The
difference is taken against the baseline as it stood at the start of the
tick, before any adaptive update. -/
theorem loopStep_transition_guards (s : SysState) (inp : TickInput) :
    (s.touched = false →
      ((loopStep s inp).touched = true ↔
        s.touchThreshold < getMedian (addSample s.window inp.reading) - s.baseline ∧
        DEBOUNCE_TIME < usub32 inp.now s.lastTouchTime)) ∧
    (s.touched = true →
      ((loopStep s inp).touched = false ↔
        getMedian (addSample s.window inp.reading) - s.baseline < s.releaseThreshold ∧
        DEBOUNCE_TIME < usub32 inp.now s.lastTouchTime)) := by
  obtain ⟨hT, hR, htc, hlt, -⟩ := updateAdaptiveBaseline_fields
    { s with window := addSample s.window inp.reading }
    inp.tAdaptCheck inp.adaptSamples inp.tAdaptAfter
  unfold loopStep
  dsimp only
  set s1 := updateAdaptiveBaseline
    { s with window := addSample s.window inp.reading }
    inp.tAdaptCheck inp.adaptSamples inp.tAdaptAfter with hs1
  dsimp only at hT hR htc hlt
  constructor
  · intro h
    by_cases hP : s.touchThreshold <
        getMedian (addSample s.window inp.reading) - s.baseline <;>
      by_cases hQ : DEBOUNCE_TIME < usub32 inp.now s.lastTouchTime <;>
      simp [hP, hQ, hT, hR, htc, hlt, h]
  · intro h
    by_cases hP : getMedian (addSample s.window inp.reading) - s.baseline <
        s.releaseThreshold <;>
      by_cases hQ : DEBOUNCE_TIME < usub32 inp.now s.lastTouchTime <;>
      simp [hP, hQ, hT, hR, htc, hlt, h]

/-- Witness for C6: an idle state whose window already sits 500 above
baseline, at a tick 100 ms after the last transition. -/
theorem loopStep_transition_guards_witness :
    (⟨0, 50, 33, List.replicate 9 500, false, 0, 0⟩ : SysState).touched = false ∧
    ((loopStep ⟨0, 50, 33, List.replicate 9 500, false, 0, 0⟩
        ⟨500, 0, [], 0, 100⟩).touched = true ↔
      (50 : Int) < getMedian (addSample (List.replicate 9 500) 500) - 0 ∧
      DEBOUNCE_TIME < usub32 100 0) :=
  ⟨rfl, (loopStep_transition_guards ⟨0, 50, 33, List.replicate 9 500, false, 0, 0⟩
    ⟨500, 0, [], 0, 100⟩).1 rfl⟩

/-- Inserting into the sorted buffer is a permutation of consing. -/
theorem insertSorted_perm (a : Int) (l : List Int) :
    List.Perm (insertSorted a l) (a :: l) := by
  induction l with
  | nil => exact .refl _
  | cons y ys ih =>
    unfold insertSorted
    split
    · exact .refl _
    · exact (List.Perm.cons y ih).trans (List.Perm.swap a y ys)

/-- Sorting the window permutes it. -/
theorem sortWindow_perm (l : List Int) : List.Perm (sortWindow l) l := by
  induction l with
  | nil => exact .refl _
  | cons x xs ih =>
    exact (insertSorted_perm x (sortWindow xs)).trans (List.Perm.cons x ih)

/-- The median of a nonempty window whose samples all equal `B` is `B`. -/
theorem getMedian_const (w : List Int) (B : Int) (hne : w ≠ [])
    (hall : ∀ x ∈ w, x = B) : getMedian w = B := by
  unfold getMedian
  have hperm := sortWindow_perm w
  have hlt : w.length / 2 < (sortWindow w).length := by
    rw [hperm.length_eq]
    exact Nat.div_lt_self (List.length_pos.mpr hne) one_lt_two
  rw [List.getD_eq_getElem _ _ hlt]
  exact hall _ (hperm.mem_iff.mp (List.getElem_mem hlt))

/-- Adding a sample equal to all existing samples keeps the window nonempty
and all-equal. -/
theorem addSample_const (w : List Int) (B : Int) (hall : ∀ x ∈ w, x = B) :
    addSample w B ≠ [] ∧ ∀ x ∈ addSample w B, x = B := by
  unfold addSample
  dsimp only
  have hmem : ∀ x ∈ w ++ [B], x = B := by
    intro x hx
    rcases List.mem_append.mp hx with hw | hb
    · exact hall x hw
    · simpa using hb
  split
  · refine ⟨?_, fun x hx => hmem x (List.mem_of_mem_drop hx)⟩
    have hlen : (w ++ [B]).length = w.length + 1 := by simp
    rw [Ne, List.drop_eq_nil_iff]
    simp only [SAMPLE_SIZE]
    omega
  · exact ⟨by simp, hmem⟩

/-- An adaptive-update burst of readings all equal to the current baseline
leaves the baseline unchanged (the 10%/90% blend is a fixed point there). -/
theorem updateAdaptiveBaseline_const (s : SysState) (tCheck tAfter : Nat)
    (B : Int) (hb : s.baseline = B) :
    (updateAdaptiveBaseline s tCheck (List.replicate 10 B) tAfter).baseline = B := by
  unfold updateAdaptiveBaseline
  split
  · dsimp only
    rw [hb]
    have hsum : (List.replicate 10 B).sum = 10 * B := by
      rw [List.sum_replicate, nsmul_eq_mul]
      norm_num
    rw [hsum, mul_comm (10 : Int) B, Int.mul_tdiv_cancel _ (by norm_num)]
    rw [show B * 9 + B = B * 10 by ring, Int.mul_tdiv_cancel _ (by norm_num)]
  · exact hb

/-- The steady-state invariant for a constant input stream: idle, baseline
pinned at `B`, touch threshold pinned at `T`, and a nonempty window of
samples all equal to `B`. -/
def steadyInv (B T : Int) (s : SysState) : Prop :=
  s.touched = false ∧ s.baseline = B ∧ s.touchThreshold = T ∧
  s.window ≠ [] ∧ ∀ x ∈ s.window, x = B

/-- One tick whose readings all equal `B` preserves the steady-state
invariant (for a nonnegative touch threshold). -/
theorem loopStep_steady (B T : Int) (hT : 0 ≤ T) (s : SysState)
    (inp : TickInput) (hs : steadyInv B T s) (hr : inp.reading = B)
    (ha : inp.adaptSamples = List.replicate 10 B) :
    steadyInv B T (loopStep s inp) := by
  obtain ⟨htouch, hbase, hthr, hne, hall⟩ := hs
  have hwin : addSample s.window inp.reading ≠ [] ∧
      ∀ x ∈ addSample s.window inp.reading, x = B := by
    rw [hr]; exact addSample_const s.window B hall
  have hmed : getMedian (addSample s.window inp.reading) = B :=
    getMedian_const _ B hwin.1 hwin.2
  obtain ⟨hT1, hR1, htc1, hlt1, hw1⟩ := updateAdaptiveBaseline_fields
    { s with window := addSample s.window inp.reading }
    inp.tAdaptCheck inp.adaptSamples inp.tAdaptAfter
  have hb1 : (updateAdaptiveBaseline
      { s with window := addSample s.window inp.reading }
      inp.tAdaptCheck inp.adaptSamples inp.tAdaptAfter).baseline = B := by
    rw [ha]
    exact updateAdaptiveBaseline_const _ _ _ B hbase
  unfold loopStep
  dsimp only
  set s1 := updateAdaptiveBaseline
    { s with window := addSample s.window inp.reading }
    inp.tAdaptCheck inp.adaptSamples inp.tAdaptAfter with hs1
  dsimp only at hT1 hR1 htc1 hlt1 hw1
  have hguard : ¬ (s1.touchThreshold < getMedian (addSample s.window inp.reading) - s.baseline) := by
    rw [hmed, hbase, hT1, hthr]
    omega
  have hfire : (!s1.touched &&
      decide (s1.touchThreshold < getMedian (addSample s.window inp.reading) - s.baseline) &&
      decide (DEBOUNCE_TIME < usub32 inp.now s1.lastTouchTime)) = false := by
    simp [hguard]
  have hrel : (s1.touched &&
      decide (getMedian (addSample s.window inp.reading) - s.baseline < s1.releaseThreshold) &&
      decide (DEBOUNCE_TIME < usub32 inp.now s1.lastTouchTime)) = false := by
    simp [htc1, htouch]
  rw [hfire, hrel]
  simp only [Bool.false_eq_true, if_false]
  refine ⟨by rw [htc1, htouch], hb1, by rw [hT1, hthr], ?_, ?_⟩
  · rw [hw1]; exact hwin.1
  · rw [hw1]; exact hwin.2

/-- The invariant is preserved along any constant-input stream. -/
theorem runTicks_steady (B T : Int) (hT : 0 ≤ T) (inps : List TickInput) :
    ∀ s : SysState, steadyInv B T s →
      (∀ inp ∈ inps, inp.reading = B ∧ inp.adaptSamples = List.replicate 10 B) →
      steadyInv B T (runTicks s inps) := by
  induction inps with
  | nil => exact fun s hs _ => hs
  | cons i is ih =>
    intro s hs hin
    have hstep := loopStep_steady B T hT s i hs
      (hin i (List.mem_cons_self i is)).1 (hin i (List.mem_cons_self i is)).2
    exact ih (loopStep s i) hstep (fun j hj => hin j (List.mem_cons_of_mem i hj))

/-- C7: starting idle from a fresh calibration, if every raw reading fed to
the filter, and every adaptive-burst reading, equals the calibrated
baseline, then the touch state stays `Idle` for every subsequent tick: the
zero difference never exceeds the (≥ 50) touch threshold. -/
theorem constant_input_stays_idle (s : SysState)
    (calibSamples noiseSamples : List Int) (t0 : Nat) (inps : List TickInput)
    (hidle : s.touched = false)
    (hconst : ∀ inp ∈ inps,
      inp.reading = (calibrateBaseline s calibSamples noiseSamples t0).baseline ∧
      inp.adaptSamples = List.replicate 10
        (calibrateBaseline s calibSamples noiseSamples t0).baseline) :
    (runTicks (calibrateBaseline s calibSamples noiseSamples t0) inps).touched = false := by
  have h50 : (50 : Int) ≤ (calibrateBaseline s calibSamples noiseSamples t0).touchThreshold :=
    le_max_right _ _
  have hinv : steadyInv (calibrateBaseline s calibSamples noiseSamples t0).baseline
      (calibrateBaseline s calibSamples noiseSamples t0).touchThreshold
      (calibrateBaseline s calibSamples noiseSamples t0) := by
    refine ⟨hidle, rfl, rfl, ?_, ?_⟩
    · show List.replicate SAMPLE_SIZE _ ≠ []
      simp [SAMPLE_SIZE]
    · show ∀ x ∈ List.replicate SAMPLE_SIZE _, _
      intro x hx
      exact List.eq_of_mem_replicate hx
  exact (runTicks_steady _ _ (by omega) inps _ hinv hconst).1

/-- Witness for C7: one tick of baseline-valued input after a concrete
calibration leaves the system idle. -/
theorem constant_input_stays_idle_witness :
    initState.touched = false ∧
    (runTicks (calibrateBaseline initState [400, 600] [500, 500] 0)
      [⟨10, 0, List.replicate 10 10, 0, 100⟩]).touched = false := by
  refine ⟨rfl, ?_⟩
  exact constant_input_stays_idle initState [400, 600] [500, 500] 0
    [⟨10, 0, List.replicate 10 10, 0, 100⟩] rfl (by decide)

/-- C9: calibration leaves the filter window seeded with `SAMPLE_SIZE` = 9
copies of the freshly computed baseline, so the very next `getMedian` call
is defined and returns the baseline before any real reading arrives. -/
theorem calibrate_seeds_filter (s : SysState)
    (calibSamples noiseSamples : List Int) (now : Nat) :
    (calibrateBaseline s calibSamples noiseSamples now).window =
      List.replicate SAMPLE_SIZE
        (calibrateBaseline s calibSamples noiseSamples now).baseline ∧
    getMedian (calibrateBaseline s calibSamples noiseSamples now).window =
      (calibrateBaseline s calibSamples noiseSamples now).baseline := by
  refine ⟨rfl, ?_⟩
  apply getMedian_const
  · show List.replicate SAMPLE_SIZE _ ≠ []
    simp [SAMPLE_SIZE]
  · show ∀ x ∈ List.replicate SAMPLE_SIZE _, _
    intro x hx
    exact List.eq_of_mem_replicate hx

end CapTest2
